import Mathlib

/-!
Shallow embedding of `recipes.py`, the bootstrap script that clones the
recipe engine pinned in a repository's `infra/config/recipes.cfg` and then
forwards to the engine's own entry point.

The embedding models the POSIX (non-Windows) behaviour of the script:
`IS_WIN` is false, `os.path.sep` is `/`, and the `.bat` suffixes are empty.
JSON numbers are modelled as integers (floating-point JSON numbers are out
of scope).  Python dynamic-type failures (`TypeError`, `AttributeError`,
`KeyError`) are modelled explicitly at the places where the script can
raise them.  Side-effecting git and filesystem operations are modelled by
an abstract repository state together with a trace of the external calls
that the script issues.
-/

namespace RecipesPy

/-- JSON values as produced by `json.load`.  Objects keep insertion order,
as Python dicts do. -/
inductive JValue where
  | null
  | bool (b : Bool)
  | num (n : Int)
  | str (s : String)
  | arr (elems : List JValue)
  | obj (fields : List (String × JValue))

/-- Python exceptions the script can raise.  `keyError` is only an
intermediate value: `parse` converts it to `malformedRecipesCfg` exactly as
the `except KeyError` handler in the source does. -/
inductive PyError where
  | jsonDecodeError
  | attributeError
  | typeError
  | keyError (key : String)
  | malformedRecipesCfg (msg : String) (path : String)
  | calledProcessError (cmd : String)
deriving DecidableEq

/-- The `EngineDep` namedtuple from the source: the dependency entry for the
recipe engine in the client repo's recipes.cfg. -/
structure EngineDep where
  url : JValue
  revision : JValue
  branch : JValue

/-- Dictionary lookup on an ordered association list (Python dict access). -/
def lookup? : List (String × JValue) → String → Option JValue
  | [], _ => none
  | (k, v) :: rest, key => if k = key then some v else lookup? rest key

/-- Python truthiness of a JSON value. -/
def truthy : JValue → Bool
  | .null => false
  | .bool b => b
  | .num n => !(n == 0)
  | .str s => !(s == "")
  | .arr elems => !elems.isEmpty
  | .obj fields => !fields.isEmpty

/-- Model of Python's `str.startswith`. -/
def strStartsWith (s pre : String) : Bool :=
  pre.toList.isPrefixOf s.toList

/-- Model of Python's `str.endswith` (used only for path joining). -/
def strEndsWith (s suffix : String) : Bool :=
  suffix.toList.reverse.isPrefixOf s.toList.reverse

/-- POSIX `os.path.join` on two components. -/
def joinPath (a b : String) : String :=
  if strStartsWith b "/" then b
  else if a = "" then b
  else if strEndsWith a "/" then a ++ b
  else a ++ "/" ++ b

/-- Python's `dict.setdefault`: insert at the end when the key is absent. -/
def setdefault (fields : List (String × JValue)) (key : String) (v : JValue) :
    List (String × JValue) :=
  if (lookup? fields key).isSome then fields else fields ++ [(key, v)]

/-- Python's `dict` item assignment: replace in place, or append. -/
def setKey : List (String × JValue) → String → JValue → List (String × JValue)
  | [], key, v => [(key, v)]
  | (k, w) :: rest, key, v =>
    if k = key then (key, v) :: rest else (k, w) :: setKey rest key v

/-- Branch normalization from `parse` (source lines 104-106): a branch that
does not already start with `refs/` is prefixed with `refs/heads/`. -/
def normalizeBranch (b : String) : String :=
  if strStartsWith b "refs/" then b else "refs/heads/" ++ b

/-- Python's `repr` of a simple string, as it appears in `str(KeyError)`. -/
def pyRepr (s : String) : String := "\x27" ++ s ++ "\x27"

/-- Containment of a list of characters in another (Python `in` on str). -/
def charsInfixOf : List Char → List Char → Bool
  | needle, [] => needle.isEmpty
  | needle, c :: rest => needle.isPrefixOf (c :: rest) || charsInfixOf needle rest

/-- Python equality of a JSON value against the string `recipe_engine`. -/
def isSentinel : JValue → Bool
  | .str s => s == "recipe_engine"
  | _ => false

/-- Python's `'url' not in engine` membership test, which is type-dependent:
key lookup for dicts, element membership for lists, substring test for
strings, and a `TypeError` otherwise. -/
def urlContained : JValue → Except PyError Bool
  | .obj ef => .ok (lookup? ef "url").isSome
  | .arr elems =>
    .ok (elems.any (fun e => match e with | .str s => s == "url" | _ => false))
  | .str s => .ok (charsInfixOf "url".toList s.toList)
  | _ => .error .typeError

/-- The error message for a dependency entry without a `url` field. -/
def urlMissingMsg : String :=
  "Required field \"url\" in dependency \"recipe_engine\" not found"

/-- Determination of the repository's own identifier (source lines 87-89):
`repo_name` when present and truthy, otherwise `project_id` (a missing
`project_id` is a `KeyError`). -/
def repoIdentity (fields : List (String × JValue)) : Except PyError JValue :=
  let rn := (lookup? fields "repo_name").getD .null
  if truthy rn then .ok rn
  else
    match lookup? fields "project_id" with
    | some v => .ok v
    | none => .error (.keyError "project_id")

/-- The tail of `parse` once the `recipe_engine` dependency entry has been
located (source lines 95-110): check `url`, apply defaults, normalize the
branch, resolve the recipes path, and build the `EngineDep`.  A non-dict
entry that passes the membership test fails at `setdefault`
(`AttributeError`); a non-string branch fails at `startswith`
(`AttributeError`); a non-string `recipes_path` fails at `str.replace`
(`AttributeError`); extra keys in the entry make `EngineDep(**engine)`
raise a `TypeError`. -/
def parseEngine (repoRoot recipesCfgPath : String)
    (fields : List (String × JValue)) (engine : JValue) (py3Only : JValue) :
    Except PyError (Option EngineDep × JValue × JValue) :=
  match urlContained engine with
  | .error e => .error e
  | .ok false => .error (.malformedRecipesCfg urlMissingMsg recipesCfgPath)
  | .ok true =>
    match engine with
    | .obj ef0 =>
      let ef1 := setdefault ef0 "revision" (.str "")
      let ef2 := setdefault ef1 "branch" (.str "refs/heads/main")
      let recipesPath0 := (lookup? fields "recipes_path").getD (.str "")
      match (lookup? ef2 "branch").getD .null with
      | .str b =>
        let b2 := normalizeBranch b
        let ef3 := setKey ef2 "branch" (.str b2)
        match recipesPath0 with
        | .str rp =>
          if ef3.all (fun kv => kv.1 == "url" || kv.1 == "revision" || kv.1 == "branch") then
            .ok (some { url := (lookup? ef3 "url").getD .null,
                        revision := (lookup? ef3 "revision").getD .null,
                        branch := .str b2 },
                 .str (joinPath repoRoot rp), py3Only)
          else .error .typeError
        | _ => .error .attributeError
      | _ => .error .attributeError
    | _ => .error .attributeError

/-- The part of `parse` after the schema-version check has passed
(source lines 85-110). -/
def parseAtV2 (repoRoot recipesCfgPath : String)
    (fields : List (String × JValue)) (py3Only : JValue) :
    Except PyError (Option EngineDep × JValue × JValue) :=
  match repoIdentity fields with
  | .error e => .error e
  | .ok idv =>
    if isSentinel idv then
      .ok (none, (lookup? fields "recipes_path").getD (.str ""), py3Only)
    else
      match lookup? fields "deps" with
      | none => .error (.keyError "deps")
      | some (.obj depsF) =>
        match lookup? depsF "recipe_engine" with
        | none => .error (.keyError "recipe_engine")
        | some engine =>
          parseEngine repoRoot recipesCfgPath fields engine py3Only
      | some _ => .error .typeError

/-- The body of the `try` block in `parse` (source lines 80-112), before the
`except KeyError` handler is applied.  `api_version` values other than the
integer 2 hit the `'unknown version %d'` formatting, which itself raises a
`TypeError` when the value is not a number or boolean. -/
def parseTry (repoRoot recipesCfgPath : String)
    (fields : List (String × JValue)) (py3Only : JValue) :
    Except PyError (Option EngineDep × JValue × JValue) :=
  match lookup? fields "api_version" with
  | none => .error (.keyError "api_version")
  | some (.num n) =>
    if n = 2 then parseAtV2 repoRoot recipesCfgPath fields py3Only
    else
      .error (.malformedRecipesCfg ("unknown version " ++ toString n)
                recipesCfgPath)
  | some (.bool b) =>
    .error (.malformedRecipesCfg
              ("unknown version " ++ (if b then "1" else "0")) recipesCfgPath)
  | some _ => .error .typeError

/-- The `parse` function of the source (lines 58-112).  The input is the
result of `json.load`: `none` models a file that is not valid JSON (the
decoder's own error escapes, it is not wrapped in `MalformedRecipesCfg`).
A top-level value that is not an object fails at `pb.get` with an
`AttributeError`.  A `KeyError` escaping the try block is converted to
`MalformedRecipesCfg(str(ex), recipes_cfg_path)`. -/
def parse (repoRoot recipesCfgPath : String) (input : Option JValue) :
    Except PyError (Option EngineDep × JValue × JValue) :=
  match input with
  | none => .error .jsonDecodeError
  | some pb =>
    match pb with
    | .obj fields =>
      let py3Only := (lookup? fields "py3_only").getD (.bool false)
      match parseTry repoRoot recipesCfgPath fields py3Only with
      | .error (.keyError k) =>
        .error (.malformedRecipesCfg (pyRepr k) recipesCfgPath)
      | r => r
    | _ => .error .attributeError

/-- Python `str()` of a JSON value, used where the script string-formats a
manifest value (`'%s^\x7bcommit\x7d' % revision`).  The renderings of
containers are not modelled in detail; every claim instantiates the pinned
revision with a string, for which `pyStr` is exact. -/
def pyStr : JValue → String
  | .null => "None"
  | .bool b => if b then "True" else "False"
  | .num n => toString n
  | .str s => s
  | .arr _ => "<list>"
  | .obj _ => "<dict>"

/-- Characters of a URL from the first `/` after the netloc onwards. -/
def dropNetloc : List Char → List Char
  | [] => []
  | c :: cs => if c = '/' then c :: cs else dropNetloc cs

/-- `urllib.parse.urlparse(url).path` for a URL starting with `file://`:
the scheme and the netloc (up to the next `/`) are dropped. -/
def urlparsePath (url : String) : String :=
  String.mk (dropNetloc (url.drop 7).toList)

/-- Python truthiness of an `Optional[str]` (`None` and `''` are falsy). -/
def optTruthy : Option String → Bool
  | some s => !(s == "")
  | none => false

/-- Abstract state of the managed checkout directory.  Revisions are
identified by name; the working tree is abstracted as "matches HEAD or
not".  The model treats distinct revisions as having distinct trees, so
`git diff --quiet <rev>` succeeds exactly when HEAD is `<rev>` and the
working tree is unmodified. -/
structure RepoState where
  initialized : Bool
  localRevs : List String
  headRev : Option String
  worktreeMatchesHead : Bool
  untrackedPresent : Bool
  lockPresent : Bool
deriving DecidableEq

/-- Environment of the version-control subprocesses: what a fetch of a
given branch from a given URL makes locally resolvable (`none` models a
failing fetch), and whether removing the stale `index.lock` file fails
with an error other than `ENOENT`. -/
structure GitEnv where
  fetchResult : String → String → Option (List String)
  lockRemovalBlocked : Bool

/-- One external call issued by the script, in issue order.  `showToplevel`
is the `git rev-parse --show-toplevel` made by `main`; the others are the
calls of the managed-checkout branch of `checkout_engine`.
`warnRemoveFailed` records the `logging.warn` on a lock-removal failure. -/
inductive Call where
  | gitInit (path : String)
  | revParse (rev : String)
  | fetch (url : String) (branch : String)
  | diff (rev : String)
  | removeLock (path : String)
  | warnRemoveFailed (path : String)
  | reset (rev : String)
  | clean
  | showToplevel
deriving DecidableEq

/-- Success condition of `git diff --quiet <rev>`: the revision resolves
and the working tree matches it exactly. -/
def diffMatches (s : RepoState) (rev : String) : Bool :=
  s.localRevs.contains rev &&
    (match s.headRev with
     | some h => h == rev && s.worktreeMatchesHead
     | none => false)

/-- The unconditional `git clean -qxf` at the end of the managed checkout
(source line 218): removes untracked and ignored artifacts. -/
def cleanStep (s : RepoState) (trace : List Call) :
    Except PyError RepoState × List Call :=
  (.ok { s with untrackedPresent := false }, trace ++ [Call.clean])

/-- `os.path.join(engine_path, '.git', 'index.lock')`. -/
def lockFilePath (enginePath : String) : String :=
  joinPath (joinPath enginePath ".git") "index.lock"

/-- The reset path of the managed checkout (source lines 207-214): remove a
stale `.git/index.lock` (ignoring `ENOENT`; warning on any other failure),
then `git reset -q --hard <rev>`.  The reset succeeds exactly when the
revision resolves locally and no lock file remains; on success HEAD becomes
the revision and the working tree matches it. -/
def resetStep (env : GitEnv) (enginePath rev : String) (s : RepoState)
    (trace : List Call) : Except PyError RepoState × List Call :=
  let lockPath := lockFilePath enginePath
  let trace1 := trace ++ [Call.removeLock lockPath]
  let s2 : RepoState :=
    if s.lockPresent && !env.lockRemovalBlocked then { s with lockPresent := false } else s
  let trace2 :=
    if s.lockPresent && env.lockRemovalBlocked then
      trace1 ++ [Call.warnRemoveFailed lockPath]
    else trace1
  let trace3 := trace2 ++ [Call.reset rev]
  if s2.localRevs.contains rev && !s2.lockPresent then
    cleanStep { s2 with headRev := some rev, worktreeMatchesHead := true } trace3
  else (.error (.calledProcessError "reset"), trace3)

/-- The managed-checkout branch of `checkout_engine` (source lines 182-218):
`git init`, local resolvability check via `git rev-parse --verify`, fetch of
the pinned branch when the revision is not resolvable, `git diff --quiet`
against the pinned revision, reset path when the diff fails, and the
unconditional clean.  Passing a non-string revision to the `git diff`
argument vector would raise a `TypeError` in `subprocess`. -/
def managedCheckout (env : GitEnv) (enginePath url branch : String)
    (revision : JValue) (s0 : RepoState) :
    Except PyError RepoState × List Call :=
  let s := { s0 with initialized := true }
  let revKey := pyStr revision
  let trace := [Call.gitInit enginePath, Call.revParse revKey]
  let ensured : Except PyError RepoState × List Call :=
    match s.localRevs.contains revKey with
    | true => (.ok s, trace)
    | false =>
      match env.fetchResult url branch with
      | some revs =>
        (.ok { s with localRevs := s.localRevs ++ revs },
         trace ++ [Call.fetch url branch])
      | none =>
        (.error (.calledProcessError "fetch"), trace ++ [Call.fetch url branch])
  match ensured with
  | (.error e, tr) => (.error e, tr)
  | (.ok s1, tr) =>
    match revision with
    | .str rev =>
      let tr2 := tr ++ [Call.diff rev]
      match diffMatches s1 rev with
      | true => cleanStep s1 tr2
      | false => resetStep env enginePath rev s1 tr2
    | _ => (.error .typeError, tr)

/-- The `checkout_engine` function of the source (lines 166-220).  The
result carries the resolved engine path, the `py3_only` value and the final
repository state, together with the trace of external calls.  An override
path that is truthy is returned verbatim without evaluating
`url.startswith` (Python's `and` short-circuits); a falsy override with a
`file://` URL uses the decoded URL path; otherwise the managed checkout
runs. -/
def checkout_engine (enginePathArg : Option String)
    (repoRoot recipesCfgPath : String) (manifest : Option JValue)
    (env : GitEnv) (s : RepoState) :
    Except PyError (String × JValue × RepoState) × List Call :=
  match parse repoRoot recipesCfgPath manifest with
  | .error e => (.error e, [])
  | .ok (none, recipesPath, py3) =>
    match recipesPath with
    | .str rp => (.ok (joinPath repoRoot rp, py3, s), [])
    | _ => (.error .typeError, [])
  | .ok (some dep, recipesPathJ, py3) =>
    if optTruthy enginePathArg then (.ok (enginePathArg.getD "", py3, s), [])
    else
      match dep.url with
      | .str url =>
        let ep1 := if strStartsWith url "file://" then urlparsePath url else ""
        if !(ep1 == "") then (.ok (ep1, py3, s), [])
        else
          match recipesPathJ, dep.branch with
          | .str recipesPath, .str branch =>
            let enginePath :=
              joinPath (joinPath recipesPath ".recipe_deps") "recipe_engine"
            match managedCheckout env enginePath url branch dep.revision s with
            | (.ok s2, tr) => (.ok (enginePath, py3, s2), tr)
            | (.error e, tr) => (.error e, tr)
          | _, _ => (.error .typeError, [])
      | _ => (.error .attributeError, [])

/-- Token scan underlying `argparse` in `parse_args`: collects the
`-O`/`--project-override` values in command-line order (`action='append'`)
and the last `--package` value, ignoring everything else.  Joined forms
(`-Ovalue`, `--project-override=value`, `--package=value`) are recognised.
Argparse's prefix abbreviations, its `--` terminator, and its usage errors
for a missing option value are not modelled. -/
def scanArgs : List String → List String → Option String →
    List String × Option String
  | [], ovs, pkg => (ovs, pkg)
  | a :: rest, ovs, pkg =>
    if a = "-O" ∨ a = "--project-override" then
      match rest with
      | v :: rest2 => scanArgs rest2 (ovs ++ [v]) pkg
      | [] => (ovs, pkg)
    else if strStartsWith a "--project-override=" then
      scanArgs rest (ovs ++ [a.drop 19]) pkg
    else if strStartsWith a "-O" then
      scanArgs rest (ovs ++ [a.drop 2]) pkg
    else if a = "--package" then
      match rest with
      | v :: rest2 => scanArgs rest2 ovs (some v)
      | [] => (ovs, pkg)
    else if strStartsWith a "--package=" then
      scanArgs rest ovs (some (a.drop 10))
    else scanArgs rest ovs pkg

/-- The loop at the end of `parse_args` (source lines 160-163): the first
collected override value starting with `recipe_engine=`, stripped of that
prefix. -/
def firstEngineOverride : List String → Option String
  | [] => none
  | o :: rest =>
    if strStartsWith o "recipe_engine=" then some (o.drop 14)
    else firstEngineOverride rest

/-- `os.path.abspath` relative to a current working directory.  Path
normalization (collapsing `.` and `..`) is not modelled. -/
def abspath (cwd p : String) : String :=
  if strStartsWith p "/" then p else joinPath cwd p

/-- The `parse_args` function of the source (lines 148-163): the engine
override extracted from the `-O`/`--project-override` values and the
`--package` value made absolute. -/
def parse_args (argv : List String) (cwd : String) :
    Option String × Option String :=
  let scanned := scanArgs argv [] none
  (firstEngineOverride scanned.1, scanned.2.map (abspath cwd))

/-- Characters of a POSIX path up to and including the last `/` (empty if
the path has no `/`). -/
def headPart : List Char → List Char
  | [] => []
  | c :: cs =>
    if cs.contains '/' then c :: headPart cs
    else if c = '/' then [c] else []

/-- POSIX `os.path.dirname`: everything before the last `/`, with trailing
slashes stripped unless the result consists only of slashes. -/
def dirname (p : String) : String :=
  let head := headPart p.toList
  let stripped := (head.reverse.dropWhile (fun c => c == '/')).reverse
  if stripped.isEmpty then String.mk head else String.mk stripped

/-- The inputs `main` draws on: the search path, the command-line arguments
after the program name, the `RECIPES_USE_PY3` environment variable, the
working directory, the decoded output of `git rev-parse --show-toplevel`,
the decoded manifest, and the state of the managed checkout. -/
structure World where
  onPath : String → Bool
  argv : List String
  py3Env : Option String
  cwd : String
  gitToplevel : String
  manifest : Option JValue
  env : GitEnv
  repoState : RepoState

/-- Outcome of `main` on POSIX: an explicit return code with an optional
printed message, a successful `os.execvp` replacement with the final
argument vector, or an uncaught Python exception (which terminates the
process with a traceback and a non-zero status). -/
inductive MainResult where
  | exitCode (code : Int) (printed : Option String)
  | exec (argv : List String)
  | uncaught (e : PyError)
deriving DecidableEq

/-- Name of the version-control binary on POSIX. -/
def GIT : String := "git"

/-- Name of the package-fetch binary on POSIX. -/
def CIPD : String := "cipd"

/-- The message printed when a required binary is absent. -/
def binaryMissingMsg (b : String) : String :=
  "Required binary is not found on PATH: " ++ b

/-- Repo-root and manifest-path determination in `main` (source lines
240-251): with a truthy `--package`, the repo root is the third-level
parent of the (absolutized) manifest path and the forwarded arguments are
unchanged; otherwise the repo root is the toplevel reported by the
version-control tool, the manifest path is `infra/config/recipes.cfg`
under it, and `--package <path>` is prepended to the forwarded
arguments. -/
def computePackage (w : World) : List String × String × String × List Call :=
  let pkg := (parse_args w.argv w.cwd).2
  if optTruthy pkg then
    let p := pkg.getD ""
    (w.argv, dirname (dirname (dirname p)), p, [])
  else
    let rr := w.gitToplevel
    let cfg := joinPath (joinPath (joinPath rr "infra") "config") "recipes.cfg"
    (["--package", cfg] ++ w.argv, rr, cfg, [Call.showToplevel])

/-- The `main` function of the source (lines 227-280) on POSIX.
`REQUIRED_BINARIES` is a Python set literal `{GIT, CIPD}` whose iteration
order is unspecified; the model checks `git` first.  The runtime-variant
binary (`vpython`/`vpython3`) is checked only after `checkout_engine` has
returned. -/
def main (w : World) : MainResult × List Call :=
  if !w.onPath GIT then (.exitCode 1 (some (binaryMissingMsg GIT)), [])
  else if !w.onPath CIPD then (.exitCode 1 (some (binaryMissingMsg CIPD)), [])
  else
    let engineOverride := (parse_args w.argv w.cwd).1
    let (args, repoRoot, recipesCfgPath, preTrace) := computePackage w
    match checkout_engine engineOverride repoRoot recipesCfgPath w.manifest
        w.env w.repoState with
    | (.error e, tr) => (.uncaught e, preTrace ++ tr)
    | (.ok (enginePath, py3, _), tr) =>
      let usingPy3 := truthy py3 || (w.py3Env == some "true")
      let vpython := "vpython" ++ (if usingPy3 then "3" else "")
      if !w.onPath vpython then
        (.exitCode 1 (some (binaryMissingMsg vpython)), preTrace ++ tr)
      else
        (.exec ([vpython, "-u",
                 joinPath enginePath (joinPath "recipe_engine" "main.py")] ++ args),
         preTrace ++ tr)

/-- Detection of a `MalformedRecipesCfg` failure carrying the given
manifest path (the error's message always embeds this path, see
`MalformedRecipesCfg.__init__` in the source). -/
def isMalformedAt :
    Except PyError (Option EngineDep × JValue × JValue) → String → Bool
  | .error (.malformedRecipesCfg _ p), path => p == path
  | _, _ => false

/-- Spec case: the declared schema version is absent, or is a number other
than 2. -/
def caseBadVersion (fields : List (String × JValue)) : Bool :=
  match lookup? fields "api_version" with
  | none => true
  | some (.num n) => !(n == 2)
  | some _ => false

/-- Spec case: `repo_name` is absent or falsy and `project_id` is absent. -/
def caseNoIdentity (fields : List (String × JValue)) : Bool :=
  !(truthy ((lookup? fields "repo_name").getD .null)) &&
    (lookup? fields "project_id").isNone

/-- The repository identifier the script ends up with, when one exists:
a truthy `repo_name`, else the `project_id` value. -/
def manifestIdentity (fields : List (String × JValue)) : Option JValue :=
  let rn := (lookup? fields "repo_name").getD .null
  if truthy rn then some rn else lookup? fields "project_id"

/-- Spec case: the identifier is not the self-hosting sentinel and no
`deps.recipe_engine` entry exists. -/
def caseNoEngineEntry (fields : List (String × JValue)) : Bool :=
  match manifestIdentity fields with
  | none => false
  | some idv =>
    !(isSentinel idv) &&
      (match lookup? fields "deps" with
       | none => true
       | some (.obj depsF) => (lookup? depsF "recipe_engine").isNone
       | some _ => false)

/-- Spec case: the `deps.recipe_engine` entry exists but lacks `url`. -/
def caseNoUrl (fields : List (String × JValue)) : Bool :=
  match manifestIdentity fields with
  | none => false
  | some idv =>
    !(isSentinel idv) &&
      (match lookup? fields "deps" with
       | some (.obj depsF) =>
         (match lookup? depsF "recipe_engine" with
          | some (.obj ef) => (lookup? ef "url").isNone
          | _ => false)
       | _ => false)

/-- A JSON value that is either absent or a string. -/
def strOrAbsent : Option JValue → Bool
  | none => true
  | some (.str _) => true
  | some _ => false

/-- Type-correctness of a manifest object, restricting to the shapes on
which the script raises no `TypeError`/`AttributeError`: a numeric (or
absent) `api_version`; `deps`, when present, a mapping whose
`recipe_engine` entry, when present, is a mapping with a string (or
absent) `branch` and no keys beyond `url`/`revision`/`branch`; and a
string (or absent) `recipes_path`. -/
def wellTypedManifest (fields : List (String × JValue)) : Bool :=
  (match lookup? fields "api_version" with
   | none => true
   | some (.num _) => true
   | some _ => false) &&
  (match lookup? fields "deps" with
   | none => true
   | some (.obj depsF) =>
     (match lookup? depsF "recipe_engine" with
      | none => true
      | some (.obj ef) =>
        strOrAbsent (lookup? ef "branch") &&
          ef.all (fun kv => kv.1 == "url" || kv.1 == "revision" || kv.1 == "branch")
      | some _ => false)
   | some _ => false) &&
  strOrAbsent (lookup? fields "recipes_path")

/-- The shape of the call trace of a completed managed checkout:
initialization and local revision check, a fetch exactly when the revision
was not locally resolvable, the diff, the lock-removal/reset pair when the
fast path was not taken (with an optional removal warning), and the final
clean. -/
def traceShape (ep rev url branch : String) (needFetch fast warn : Bool) :
    List Call :=
  [Call.gitInit ep, Call.revParse rev] ++
  (if needFetch then [Call.fetch url branch] else []) ++
  [Call.diff rev] ++
  (if fast then []
   else [Call.removeLock (lockFilePath ep)] ++
     (if warn then [Call.warnRemoveFailed (lockFilePath ep)] else []) ++
     [Call.reset rev]) ++
  [Call.clean]

theorem lookup?_append (xs ys : List (String × JValue)) (k : String) :
    lookup? (xs ++ ys) k =
      match lookup? xs k with
      | some v => some v
      | none => lookup? ys k := by
  induction xs with
  | nil => simp [lookup?]
  | cons hd tl ih =>
    obtain ⟨k0, v0⟩ := hd
    by_cases h : k0 = k <;> simp [lookup?, h, ih]

theorem lookup?_setdefault_same (fs : List (String × JValue)) (k : String)
    (v : JValue) :
    lookup? (setdefault fs k v) k = some ((lookup? fs k).getD v) := by
  unfold setdefault
  by_cases h : (lookup? fs k).isSome
  · obtain ⟨w, hw⟩ := Option.isSome_iff_exists.mp h
    simp [h, hw]
  · have hn : lookup? fs k = none := Option.not_isSome_iff_eq_none.mp h
    simp [h, hn, lookup?_append, lookup?]

theorem lookup?_setdefault_ne (fs : List (String × JValue)) (k k' : String)
    (v : JValue) (h : k' ≠ k) :
    lookup? (setdefault fs k v) k' = lookup? fs k' := by
  unfold setdefault
  by_cases hs : (lookup? fs k).isSome
  · simp [hs]
  · rw [if_neg (by simp [hs]), lookup?_append]
    cases hl : lookup? fs k' with
    | some w => rfl
    | none =>
      simp only [lookup?]
      rw [if_neg (fun hh => h hh.symm)]

theorem strStartsWith_refs_append (b : String) :
    strStartsWith ("refs/heads/" ++ b) "refs/" = true := by
  unfold strStartsWith
  rw [ List.isPrefixOf_iff_prefix]
  have h2 : ("refs/heads/" ++ b).toList = "refs/heads/".toList ++ b.toList := by
    simp [String.toList, String.data_append]
  rw [h2]
  exact List.IsPrefix.trans (by decide) ⟨b.toList, rfl⟩

theorem normalizeBranch_idem (b : String) :
    normalizeBranch (normalizeBranch b) = normalizeBranch b := by
  by_cases h : strStartsWith b "refs/" = true
  · simp [normalizeBranch, h]
  · simp only [Bool.not_eq_true] at h
    simp [normalizeBranch, h, strStartsWith_refs_append]

/-- Inversion of the successful dependency-returning branch of
`parseEngine`: the branch of the returned descriptor is the normalization
of the manifest's branch value, defaulting to `refs/heads/main`. -/
theorem parseEngine_branch (rr cfg : String) (fields ef : List (String × JValue))
    (py3 : JValue) (dep : EngineDep) (rpJ py3' : JValue)
    (h : parseEngine rr cfg fields (.obj ef) py3 = .ok (some dep, rpJ, py3')) :
    dep.branch = .str (normalizeBranch
      (match lookup? ef "branch" with
       | some (.str b) => b
       | _ => "refs/heads/main")) := by
  have hb : (lookup? (setdefault (setdefault ef "revision" (JValue.str ""))
      "branch" (JValue.str "refs/heads/main")) "branch").getD JValue.null =
      (lookup? ef "branch").getD (JValue.str "refs/heads/main") := by
    rw [lookup?_setdefault_same, lookup?_setdefault_ne _ _ _ _ (by decide)]
    cases lookup? ef "branch" <;> simp
  unfold parseEngine at h
  rw [show urlContained (JValue.obj ef) = .ok ((lookup? ef "url").isSome)
        from rfl] at h
  by_cases hu : (lookup? ef "url").isSome
  · rw [hu] at h
    dsimp only [] at h
    rw [hb] at h
    split at h
    · rename_i b heq
      split at h
      · rename_i rp heq2
        split at h
        · simp only [Except.ok.injEq, Prod.mk.injEq, Option.some.injEq] at h
          rw [← h.1]
          cases hlb : lookup? ef "branch" with
          | none =>
            rw [hlb, Option.getD_none, JValue.str.injEq] at heq
            simp [heq]
          | some v =>
            rw [hlb, Option.getD_some] at heq
            rw [heq]
        · exact Except.noConfusion h
      · exact Except.noConfusion h
    · exact Except.noConfusion h
  · rw [Bool.not_eq_true] at hu
    rw [hu] at h
    dsimp only [] at h
    exact Except.noConfusion h

theorem parseTry_of_parse_ok (rr cfg : String) (fields : List (String × JValue))
    (res : Option EngineDep × JValue × JValue)
    (hparse : parse rr cfg (some (.obj fields)) = .ok res) :
    parseTry rr cfg fields ((lookup? fields "py3_only").getD (.bool false)) =
      .ok res := by
  unfold parse at hparse
  dsimp only [] at hparse
  cases hr : parseTry rr cfg fields ((lookup? fields "py3_only").getD (.bool false)) with
  | ok v =>
    rw [hr] at hparse
    dsimp only [] at hparse
    exact hparse
  | error e =>
    rw [hr] at hparse
    cases e <;> dsimp only [] at hparse <;> exact Except.noConfusion hparse

theorem parse_ok_parseEngine (rr cfg : String)
    (fields depsF : List (String × JValue)) (engine : JValue)
    (dep : EngineDep) (rpJ py3 : JValue)
    (hdeps : lookup? fields "deps" = some (.obj depsF))
    (hre : lookup? depsF "recipe_engine" = some engine)
    (hparse : parse rr cfg (some (.obj fields)) = .ok (some dep, rpJ, py3)) :
    parseEngine rr cfg fields engine
      ((lookup? fields "py3_only").getD (.bool false)) =
      .ok (some dep, rpJ, py3) := by
  have ht := parseTry_of_parse_ok rr cfg fields _ hparse
  unfold parseTry at ht
  split at ht
  · exact Except.noConfusion ht
  · split at ht
    · unfold parseAtV2 at ht
      split at ht
      · exact Except.noConfusion ht
      · split at ht
        · simp at ht
        · rw [hdeps] at ht
          dsimp only [] at ht
          rw [hre] at ht
          exact ht
    · exact Except.noConfusion ht
  · exact Except.noConfusion ht
  · exact Except.noConfusion ht

/-- Claim C6: for every manifest that `parse` accepts with a `recipe_engine`
dependency entry, an absent `branch` defaults to `refs/heads/main`; a
declared branch is normalized with `normalizeBranch`, which prefixes
`refs/heads/` to a short name (one not starting with `refs/`) and passes a
fully qualified name through unchanged; and the normalization is
idempotent. -/
theorem branch_default_and_normalization (rr cfg : String)
    (fields depsF ef : List (String × JValue)) (dep : EngineDep)
    (rpJ py3 : JValue)
    (hdeps : lookup? fields "deps" = some (.obj depsF))
    (hre : lookup? depsF "recipe_engine" = some (.obj ef))
    (hparse : parse rr cfg (some (.obj fields)) = .ok (some dep, rpJ, py3)) :
    (lookup? ef "branch" = none → dep.branch = .str "refs/heads/main") ∧
    (∀ b, lookup? ef "branch" = some (.str b) →
        dep.branch = .str (normalizeBranch b)) ∧
    (∀ b, strStartsWith b "refs/" = false →
        normalizeBranch b = "refs/heads/" ++ b) ∧
    (∀ b, strStartsWith b "refs/" = true → normalizeBranch b = b) ∧
    (∀ b, normalizeBranch (normalizeBranch b) = normalizeBranch b) := by
  have he := parse_ok_parseEngine rr cfg fields depsF (.obj ef) dep rpJ py3
    hdeps hre hparse
  have hbr := parseEngine_branch rr cfg fields ef _ dep rpJ py3 he
  refine ⟨?_, ?_, ?_, ?_, normalizeBranch_idem⟩
  · intro hnone
    rw [hbr, hnone]
    rfl
  · intro b hsome
    rw [hbr, hsome]
  · intro b h
    simp [normalizeBranch, h]
  · intro b h
    simp [normalizeBranch, h]

/-- Witness for `branch_default_and_normalization` at a concrete manifest
whose branch is the short name `main`. -/
theorem branch_default_and_normalization_witness :
    (parse "/r" "cfg" (some (.obj [("api_version", JValue.num 2),
        ("repo_name", JValue.str "build"),
        ("deps", JValue.obj [("recipe_engine", JValue.obj
          [("url", JValue.str "u"), ("branch", JValue.str "main")])])])) =
      .ok (some ⟨.str "u", .str "", .str "refs/heads/main"⟩,
           .str "/r/", .bool false)) ∧
    (⟨.str "u", .str "", .str "refs/heads/main"⟩ : EngineDep).branch =
      .str (normalizeBranch "main") :=
  ⟨rfl,
   (branch_default_and_normalization "/r" "cfg"
      [("api_version", JValue.num 2), ("repo_name", JValue.str "build"),
       ("deps", JValue.obj [("recipe_engine", JValue.obj
         [("url", JValue.str "u"), ("branch", JValue.str "main")])])]
      [("recipe_engine", JValue.obj
         [("url", JValue.str "u"), ("branch", JValue.str "main")])]
      [("url", JValue.str "u"), ("branch", JValue.str "main")]
      ⟨.str "u", .str "", .str "refs/heads/main"⟩ (.str "/r/") (.bool false)
      rfl rfl rfl).2.1 "main" rfl⟩

/-- Claim C7: a manifest with schema version 2 whose repository identifier
(`repo_name`, or `project_id` as fallback) is the self-hosting sentinel
`recipe_engine` parses to a `None` dependency together with the declared
recipes subpath (default empty) and the `py3_only` flag, with no condition
on a `deps` mapping. -/
theorem self_hosting_returns_none_dep (rr cfg : String)
    (fields : List (String × JValue))
    (h2 : lookup? fields "api_version" = some (.num 2))
    (hid : repoIdentity fields = .ok (.str "recipe_engine")) :
    parse rr cfg (some (.obj fields)) =
      .ok (none, (lookup? fields "recipes_path").getD (.str ""),
           (lookup? fields "py3_only").getD (.bool false)) := by
  have hpt : parseTry rr cfg fields
      ((lookup? fields "py3_only").getD (.bool false)) =
      .ok (none, (lookup? fields "recipes_path").getD (.str ""),
           (lookup? fields "py3_only").getD (.bool false)) := by
    unfold parseTry
    rw [h2]
    dsimp only []
    rw [if_pos rfl]
    unfold parseAtV2
    rw [hid]
    dsimp only []
    rfl
  unfold parse
  dsimp only []
  rw [hpt]

/-- Witness for `self_hosting_returns_none_dep`: a self-hosting manifest
(identified through the `project_id` fallback) that even carries a bogus
`deps` value is still accepted with a `None` dependency. -/
theorem self_hosting_returns_none_dep_witness :
    parse "/r" "cfg" (some (.obj [("api_version", JValue.num 2),
        ("project_id", JValue.str "recipe_engine"),
        ("deps", JValue.num 0)])) =
      .ok (none, .str "", .bool false) :=
  self_hosting_returns_none_dep "/r" "cfg"
    [("api_version", JValue.num 2),
     ("project_id", JValue.str "recipe_engine"),
     ("deps", JValue.num 0)] rfl rfl

theorem isMalformedAt_parse (rr cfg : String)
    (fields : List (String × JValue)) :
    isMalformedAt (parse rr cfg (some (.obj fields))) cfg =
      match parseTry rr cfg fields
          ((lookup? fields "py3_only").getD (.bool false)) with
      | .error (.keyError _) => true
      | .error (.malformedRecipesCfg _ p) => p == cfg
      | _ => false := by
  unfold parse
  dsimp only []
  cases h : parseTry rr cfg fields
      ((lookup? fields "py3_only").getD (.bool false)) with
  | ok v => rfl
  | error e => cases e <;> simp [isMalformedAt, pyRepr]

theorem repoIdentity_via_manifestIdentity (fields : List (String × JValue)) :
    repoIdentity fields =
      match manifestIdentity fields with
      | some v => .ok v
      | none => .error (.keyError "project_id") := by
  unfold repoIdentity manifestIdentity
  by_cases h : truthy ((lookup? fields "repo_name").getD .null)
  · simp [h]
  · simp [h]

theorem caseNoIdentity_eq_isNone (fields : List (String × JValue)) :
    caseNoIdentity fields = (manifestIdentity fields).isNone := by
  unfold caseNoIdentity manifestIdentity
  by_cases h : truthy ((lookup? fields "repo_name").getD .null)
  · simp [h]
  · simp [h]

theorem all_setdefault (fs : List (String × JValue)) (k : String) (v : JValue)
    (p : String × JValue → Bool) (hall : fs.all p = true)
    (hkv : p (k, v) = true) : (setdefault fs k v).all p = true := by
  unfold setdefault
  split
  · exact hall
  · rw [List.all_append]
    simp [hall, hkv]

theorem all_setKey (fs : List (String × JValue)) (k : String) (v : JValue)
    (p : String × JValue → Bool) (hall : fs.all p = true)
    (hkv : p (k, v) = true) : (setKey fs k v).all p = true := by
  induction fs with
  | nil => simp [setKey, hkv]
  | cons hd tl ih =>
    obtain ⟨k0, v0⟩ := hd
    simp only [List.all_cons, Bool.and_eq_true] at hall
    by_cases h : k0 = k
    · simp [setKey, h, hkv, hall.2]
    · simp [setKey, h, hall.1, ih hall.2]

/-- Under the typing assumptions, a dependency entry with a `url` field
makes `parseEngine` succeed. -/
theorem parseEngine_ok_of_wellTyped (rr cfg : String)
    (fields ef : List (String × JValue)) (py3 : JValue)
    (hurl : (lookup? ef "url").isSome = true)
    (hbr : strOrAbsent (lookup? ef "branch") = true)
    (hrp : strOrAbsent (lookup? fields "recipes_path") = true)
    (hall : ef.all
      (fun kv => kv.1 == "url" || kv.1 == "revision" || kv.1 == "branch") = true) :
    ∃ v, parseEngine rr cfg fields (.obj ef) py3 = .ok v := by
  have hb : (lookup? (setdefault (setdefault ef "revision" (JValue.str ""))
      "branch" (JValue.str "refs/heads/main")) "branch").getD JValue.null =
      (lookup? ef "branch").getD (JValue.str "refs/heads/main") := by
    rw [lookup?_setdefault_same, lookup?_setdefault_ne _ _ _ _ (by decide)]
    cases lookup? ef "branch" <;> simp
  have hall3 : ∀ b2 : String,
      ((setKey (setdefault (setdefault ef "revision" (JValue.str ""))
          "branch" (JValue.str "refs/heads/main")) "branch"
          (JValue.str b2)).all
        (fun kv => kv.1 == "url" || kv.1 == "revision" || kv.1 == "branch")) = true := by
    intro b2
    apply all_setKey
    · apply all_setdefault
      · apply all_setdefault
        · exact hall
        · decide
      · decide
    · simp
  have hrpStep : ∀ b2 : String,
      (∃ v, (match (lookup? fields "recipes_path").getD (JValue.str "") with
        | JValue.str rp =>
          if ((setKey (setdefault (setdefault ef "revision" (JValue.str ""))
                "branch" (JValue.str "refs/heads/main")) "branch"
                (JValue.str b2)).all
              (fun kv => kv.1 == "url" || kv.1 == "revision" || kv.1 == "branch")) = true then
            Except.ok (some
                ({ url := (lookup? (setKey (setdefault (setdefault ef "revision"
                      (JValue.str "")) "branch" (JValue.str "refs/heads/main"))
                      "branch" (JValue.str b2)) "url").getD JValue.null,
                   revision := (lookup? (setKey (setdefault (setdefault ef "revision"
                      (JValue.str "")) "branch" (JValue.str "refs/heads/main"))
                      "branch" (JValue.str b2)) "revision").getD JValue.null,
                   branch := JValue.str b2 } : EngineDep),
              JValue.str (joinPath rr rp), py3)
          else Except.error PyError.typeError
        | _ => Except.error PyError.attributeError) = Except.ok v) := by
    intro b2
    unfold strOrAbsent at hrp
    cases hrpv : lookup? fields "recipes_path" with
    | none =>
      dsimp only [Option.getD_none]
      rw [if_pos (hall3 _)]
      exact ⟨_, rfl⟩
    | some rv =>
      rw [hrpv] at hrp
      cases rv with
      | str s =>
        dsimp only [Option.getD_some]
        rw [if_pos (hall3 _)]
        exact ⟨_, rfl⟩
      | null => exact Bool.noConfusion hrp
      | bool x => exact Bool.noConfusion hrp
      | num x => exact Bool.noConfusion hrp
      | arr x => exact Bool.noConfusion hrp
      | obj x => exact Bool.noConfusion hrp
  unfold parseEngine
  rw [show urlContained (JValue.obj ef) = .ok ((lookup? ef "url").isSome)
        from rfl, hurl]
  dsimp only []
  rw [hb]
  unfold strOrAbsent at hbr
  cases hlb : lookup? ef "branch" with
  | none =>
    dsimp only [Option.getD_none]
    exact hrpStep _
  | some bv =>
    rw [hlb] at hbr
    cases bv with
    | str s =>
      dsimp only [Option.getD_some]
      exact hrpStep _
    | null => exact Bool.noConfusion hbr
    | bool x => exact Bool.noConfusion hbr
    | num x => exact Bool.noConfusion hbr
    | arr x => exact Bool.noConfusion hbr
    | obj x => exact Bool.noConfusion hbr

/-- Claim C3, amended: for a type-correct manifest object, `parse` fails with a
`MalformedRecipesCfg` carrying the manifest path exactly when the schema
version is absent or a number other than 2, or no truthy `repo_name` and no
`project_id` is present, or the identifier is not the self-hosting sentinel
and no `deps.recipe_engine` entry exists, or that entry lacks `url`.  A
file that is not valid JSON fails with the decoder's own error instead
(see the counterexample). -/
theorem parse_malformed_iff (rr cfg : String) (fields : List (String × JValue))
    (hwt : wellTypedManifest fields = true) :
    isMalformedAt (parse rr cfg (some (.obj fields))) cfg = true ↔
      (caseBadVersion fields || caseNoIdentity fields ||
       caseNoEngineEntry fields || caseNoUrl fields) = true := by
  rw [isMalformedAt_parse]
  unfold wellTypedManifest at hwt
  rw [Bool.and_eq_true, Bool.and_eq_true] at hwt
  obtain ⟨⟨hv, hdepsT⟩, hrpT⟩ := hwt
  unfold parseTry
  unfold caseBadVersion
  cases ha : lookup? fields "api_version" with
  | none => simp
  | some av =>
    rw [ha] at hv
    cases av with
    | null => exact Bool.noConfusion hv
    | bool x => exact Bool.noConfusion hv
    | str x => exact Bool.noConfusion hv
    | arr x => exact Bool.noConfusion hv
    | obj x => exact Bool.noConfusion hv
    | num n =>
      dsimp only []
      by_cases hn : n = 2
      · subst hn
        rw [if_pos rfl]
        unfold parseAtV2
        rw [repoIdentity_via_manifestIdentity]
        cases hid : manifestIdentity fields with
        | none =>
          simp [caseNoIdentity_eq_isNone, caseNoEngineEntry, caseNoUrl, hid]
        | some idv =>
          dsimp only []
          by_cases hs : isSentinel idv = true
          · rw [if_pos hs]
            simp [caseNoIdentity_eq_isNone, caseNoEngineEntry, caseNoUrl,
              hid, hs]
          · rw [Bool.not_eq_true] at hs
            rw [if_neg (by simp [hs])]
            cases hd : lookup? fields "deps" with
            | none =>
              simp [caseNoIdentity_eq_isNone, caseNoEngineEntry, caseNoUrl,
                hid, hs, hd]
            | some dv =>
              rw [hd] at hdepsT
              cases dv with
              | null => exact Bool.noConfusion hdepsT
              | bool x => exact Bool.noConfusion hdepsT
              | num x => exact Bool.noConfusion hdepsT
              | str x => exact Bool.noConfusion hdepsT
              | arr x => exact Bool.noConfusion hdepsT
              | obj depsF =>
                dsimp only [] at hdepsT ⊢
                cases hre : lookup? depsF "recipe_engine" with
                | none =>
                  simp [caseNoIdentity_eq_isNone, caseNoEngineEntry,
                    caseNoUrl, hid, hs, hd, hre]
                | some engine =>
                  rw [hre] at hdepsT
                  cases engine with
                  | null => exact Bool.noConfusion hdepsT
                  | bool x => exact Bool.noConfusion hdepsT
                  | num x => exact Bool.noConfusion hdepsT
                  | str x => exact Bool.noConfusion hdepsT
                  | arr x => exact Bool.noConfusion hdepsT
                  | obj ef =>
                    dsimp only [] at hdepsT ⊢
                    rw [Bool.and_eq_true] at hdepsT
                    obtain ⟨hbr, hall⟩ := hdepsT
                    by_cases hu : (lookup? ef "url").isSome = true
                    · obtain ⟨v, hok⟩ :=
                        parseEngine_ok_of_wellTyped rr cfg fields ef
                          ((lookup? fields "py3_only").getD (.bool false))
                          hu hbr hrpT hall
                      rw [hok]
                      simp [caseNoIdentity_eq_isNone, caseNoEngineEntry,
                        caseNoUrl, hid, hs, hd, hre, hu,
                        Option.isNone_iff_eq_none]
                      intro hc
                      rw [hc] at hu
                      exact Bool.noConfusion hu
                    · rw [Bool.not_eq_true] at hu
                      have hnone : lookup? ef "url" = none := by
                        cases h2 : lookup? ef "url" with
                        | none => rfl
                        | some v => rw [h2] at hu; exact Bool.noConfusion hu
                      have hpe : parseEngine rr cfg fields (JValue.obj ef)
                          ((lookup? fields "py3_only").getD (.bool false)) =
                          .error (.malformedRecipesCfg urlMissingMsg cfg) := by
                        unfold parseEngine
                        rw [show urlContained (JValue.obj ef) =
                              .ok ((lookup? ef "url").isSome) from rfl, hu]
                      rw [hpe]
                      simp [caseNoIdentity_eq_isNone, caseNoEngineEntry,
                        caseNoUrl, hid, hs, hd, hre, hnone]
      · rw [if_neg hn]
        simp [hn]

theorem diffMatches_spec (s : RepoState) (r : String)
    (h : diffMatches s r = true) :
    s.headRev = some r ∧ s.worktreeMatchesHead = true := by
  unfold diffMatches at h
  rw [Bool.and_eq_true] at h
  obtain ⟨-, h2⟩ := h
  cases hh : s.headRev with
  | none => rw [hh] at h2; exact Bool.noConfusion h2
  | some x =>
    rw [hh] at h2
    dsimp only [] at h2
    rw [Bool.and_eq_true] at h2
    obtain ⟨hx, hw⟩ := h2
    exact ⟨congrArg some (eq_of_beq hx), hw⟩

theorem resetStep_eval (env : GitEnv) (ep r : String) (s : RepoState)
    (tr : List Call) :
    resetStep env ep r s tr =
      (if s.localRevs.contains r && !(s.lockPresent && env.lockRemovalBlocked)
       then
         .ok ({ s with
                  lockPresent := false
                  headRev := some r
                  worktreeMatchesHead := true
                  untrackedPresent := false } : RepoState)
       else .error (.calledProcessError "reset"),
       tr ++ [Call.removeLock (lockFilePath ep)] ++
         (if s.lockPresent && env.lockRemovalBlocked then
            [Call.warnRemoveFailed (lockFilePath ep)] else []) ++
         [Call.reset r] ++
         (if s.localRevs.contains r && !(s.lockPresent && env.lockRemovalBlocked)
          then [Call.clean] else [])) := by
  obtain ⟨ini, lrs, hd, wm, up, lp⟩ := s
  obtain ⟨fr, bk⟩ := env
  cases lp <;> cases bk <;> simp [resetStep, cleanStep] <;>
    by_cases hm : r ∈ lrs <;> simp [hm]

theorem afterDiff_ok (env : GitEnv) (ep r : String) (s1 : RepoState)
    (pre : List Call) (s2 : RepoState)
    (hok : (match diffMatches s1 r with
            | true => cleanStep s1 (pre ++ [Call.diff r])
            | false => resetStep env ep r s1 (pre ++ [Call.diff r])).1 =
           .ok s2) :
    s2.headRev = some r ∧ s2.worktreeMatchesHead = true ∧
      s2.untrackedPresent = false ∧
    ∃ fast warn : Bool,
      (match diffMatches s1 r with
       | true => cleanStep s1 (pre ++ [Call.diff r])
       | false => resetStep env ep r s1 (pre ++ [Call.diff r])).2 =
        pre ++ [Call.diff r] ++
          (if fast then []
           else [Call.removeLock (lockFilePath ep)] ++
             (if warn then [Call.warnRemoveFailed (lockFilePath ep)] else []) ++
             [Call.reset r]) ++ [Call.clean] := by
  revert hok
  cases hdm : diffMatches s1 r with
  | true =>
    intro hok
    obtain ⟨hhd, hwm⟩ := diffMatches_spec s1 r hdm
    unfold cleanStep at hok ⊢
    dsimp only [] at hok ⊢
    simp only [Except.ok.injEq] at hok
    refine ⟨?_, ?_, ?_, true, false, ?_⟩
    · rw [← hok]; exact hhd
    · rw [← hok]; exact hwm
    · rw [← hok]
    · simp
  | false =>
    intro hok
    rw [resetStep_eval] at hok ⊢
    dsimp only [] at hok ⊢
    split at hok
    · rename_i hC
      simp only [Except.ok.injEq] at hok
      refine ⟨?_, ?_, ?_, false, s1.lockPresent && env.lockRemovalBlocked, ?_⟩
      · rw [← hok]
      · rw [← hok]
      · rw [← hok]
      · rw [if_pos hC]
        simp
    · exact Except.noConfusion hok

theorem managedCheckout_ok (env : GitEnv) (ep u b r : String)
    (s s2 : RepoState)
    (hok : (managedCheckout env ep u b (.str r) s).1 = .ok s2) :
    s2.headRev = some r ∧ s2.worktreeMatchesHead = true ∧
      s2.untrackedPresent = false ∧
    ∃ fast warn : Bool, (managedCheckout env ep u b (.str r) s).2 =
      traceShape ep r u b (!s.localRevs.contains r) fast warn := by
  obtain ⟨ini, lrs, hd, wm, up, lp⟩ := s
  unfold managedCheckout at hok ⊢
  dsimp only [pyStr] at hok ⊢
  revert hok
  cases hc : lrs.contains r with
  | true =>
    intro hok
    dsimp only [] at hok ⊢
    obtain ⟨h1, h2, h3, fast, warn, htr⟩ := afterDiff_ok env ep r _ _ s2 hok
    refine ⟨h1, h2, h3, fast, warn, ?_⟩
    rw [htr]
    simp [traceShape]
  | false =>
    intro hok
    revert hok
    cases hf : env.fetchResult u b with
    | none =>
      intro hok
      dsimp only [] at hok
      exact Except.noConfusion hok
    | some revs =>
      intro hok
      dsimp only [] at hok ⊢
      obtain ⟨h1, h2, h3, fast, warn, htr⟩ := afterDiff_ok env ep r _ _ s2 hok
      refine ⟨h1, h2, h3, fast, warn, ?_⟩
      rw [htr]
      simp [traceShape]

/-- Reduction of `checkout_engine` to `managedCheckout` when there is no
truthy override and the dependency's URL is a string without the `file://`
scheme. -/
theorem checkout_engine_managed (ov : Option String) (rr cfg : String)
    (m : Option JValue) (env : GitEnv) (s : RepoState) (dep : EngineDep)
    (rp b u : String) (py3 : JValue)
    (hov : optTruthy ov = false)
    (hparse : parse rr cfg m = .ok (some dep, .str rp, py3))
    (hurl : dep.url = .str u)
    (hnf : strStartsWith u "file://" = false)
    (hbr : dep.branch = .str b) :
    checkout_engine ov rr cfg m env s =
      (match managedCheckout env
          (joinPath (joinPath rp ".recipe_deps") "recipe_engine") u b
          dep.revision s with
       | (.ok s2, tr) =>
         (.ok (joinPath (joinPath rp ".recipe_deps") "recipe_engine", py3, s2),
          tr)
       | (.error e, tr) => (.error e, tr)) := by
  unfold checkout_engine
  rw [hparse]
  dsimp only []
  rw [hov]
  simp only [Bool.false_eq_true, if_false]
  rw [hurl]
  dsimp only []
  rw [hnf]
  simp only [Bool.false_eq_true, if_false]
  rw [hbr]
  simp only [show (("" : String) == "") = true from rfl, Bool.not_true,
    Bool.false_eq_true, if_false]

/-- Claim C1: with no caller override and a non-empty remote (non-`file://`) URL,
a successful run of `checkout_engine` leaves HEAD at the pinned revision
with a matching working tree cleaned of untracked artifacts, and its call
trace has the managed-checkout shape: a fetch of the pinned branch from
the URL occurs exactly when the revision was not locally resolvable and
sits before any reset, and the clean comes after the reset, at the very
end. -/
theorem checkout_engine_reconciles (ov : Option String) (rr cfg : String)
    (m : Option JValue) (env : GitEnv) (s s2 : RepoState) (dep : EngineDep)
    (py3 py3' : JValue) (rp u b r p : String)
    (hov : optTruthy ov = false)
    (hparse : parse rr cfg m = .ok (some dep, .str rp, py3))
    (hurl : dep.url = .str u)
    (hne : u ≠ "")
    (hnf : strStartsWith u "file://" = false)
    (hrev : dep.revision = .str r)
    (hbr : dep.branch = .str b)
    (hrun : (checkout_engine ov rr cfg m env s).1 = .ok (p, py3', s2)) :
    s2.headRev = some r ∧ s2.worktreeMatchesHead = true ∧
      s2.untrackedPresent = false ∧
    ∃ fast warn : Bool,
      (checkout_engine ov rr cfg m env s).2 =
        traceShape (joinPath (joinPath rp ".recipe_deps") "recipe_engine")
          r u b (!s.localRevs.contains r) fast warn := by
  have hce := checkout_engine_managed ov rr cfg m env s dep rp b u py3
    hov hparse hurl hnf hbr
  rw [hce, hrev] at hrun ⊢
  revert hrun
  cases hmc : managedCheckout env
      (joinPath (joinPath rp ".recipe_deps") "recipe_engine") u b (.str r) s
    with
  | mk res tr =>
    intro hrun
    cases res with
    | error e =>
      dsimp only [] at hrun
      exact Except.noConfusion hrun
    | ok s3 =>
      dsimp only [] at hrun ⊢
      simp only [Except.ok.injEq, Prod.mk.injEq] at hrun
      obtain ⟨-, -, hs⟩ := hrun
      subst hs
      have hok1 : (managedCheckout env
          (joinPath (joinPath rp ".recipe_deps") "recipe_engine") u b
          (.str r) s).1 = .ok s3 := by rw [hmc]
      obtain ⟨h1, h2, h3, fast, warn, htr⟩ :=
        managedCheckout_ok env _ u b r s s3 hok1
      rw [hmc] at htr
      exact ⟨h1, h2, h3, fast, warn, htr⟩

/-- Witness for `checkout_engine_reconciles`: a fresh checkout directory
needing a fetch and a reset ends at the pinned revision with the managed
trace shape. -/
theorem checkout_engine_reconciles_witness :
    (checkout_engine none "/r" "cfg"
        (some (.obj [("api_version", JValue.num 2),
           ("repo_name", JValue.str "x"),
           ("deps", JValue.obj [("recipe_engine", JValue.obj
             [("url", JValue.str "https://e"),
              ("revision", JValue.str "deadbeef")])])]))
        ⟨fun _ _ => some ["deadbeef"], false⟩
        ⟨false, [], none, false, true, false⟩).1 =
      .ok ("/r/.recipe_deps/recipe_engine", .bool false,
           ⟨true, ["deadbeef"], some "deadbeef", true, false, false⟩) ∧
    ∃ fast warn : Bool,
      (checkout_engine none "/r" "cfg"
        (some (.obj [("api_version", JValue.num 2),
           ("repo_name", JValue.str "x"),
           ("deps", JValue.obj [("recipe_engine", JValue.obj
             [("url", JValue.str "https://e"),
              ("revision", JValue.str "deadbeef")])])]))
        ⟨fun _ _ => some ["deadbeef"], false⟩
        ⟨false, [], none, false, true, false⟩).2 =
        traceShape "/r/.recipe_deps/recipe_engine" "deadbeef" "https://e"
          "refs/heads/main" true fast warn := by
  refine ⟨rfl, ?_⟩
  obtain ⟨-, -, -, fast, warn, htr⟩ :=
    checkout_engine_reconciles none "/r" "cfg"
      (some (.obj [("api_version", JValue.num 2),
         ("repo_name", JValue.str "x"),
         ("deps", JValue.obj [("recipe_engine", JValue.obj
           [("url", JValue.str "https://e"),
            ("revision", JValue.str "deadbeef")])])]))
      ⟨fun _ _ => some ["deadbeef"], false⟩
      ⟨false, [], none, false, true, false⟩
      ⟨true, ["deadbeef"], some "deadbeef", true, false, false⟩
      ⟨.str "https://e", .str "deadbeef", .str "refs/heads/main"⟩
      (.bool false) (.bool false) "/r/" "https://e" "refs/heads/main"
      "deadbeef" "/r/.recipe_deps/recipe_engine"
      rfl rfl rfl (by decide) rfl rfl rfl rfl
  exact ⟨fast, warn, htr⟩

/-- Claim C2, amended: when the diff-against-revision check succeeds, the
managed checkout performs no fetch and no reset; the idempotent `git init`
and the unconditional `git clean -qxf` still run, so the trace is exactly
init, rev-parse, diff, clean, and untracked artifacts are removed even on
this fast path. -/
theorem fast_path_no_fetch_no_reset (ov : Option String) (rr cfg : String)
    (m : Option JValue) (env : GitEnv) (s : RepoState) (dep : EngineDep)
    (py3 : JValue) (rp u b r : String)
    (hov : optTruthy ov = false)
    (hparse : parse rr cfg m = .ok (some dep, .str rp, py3))
    (hurl : dep.url = .str u)
    (hnf : strStartsWith u "file://" = false)
    (hrev : dep.revision = .str r)
    (hbr : dep.branch = .str b)
    (hfast : diffMatches { s with initialized := true } r = true) :
    checkout_engine ov rr cfg m env s =
      (.ok (joinPath (joinPath rp ".recipe_deps") "recipe_engine", py3,
            { s with initialized := true, untrackedPresent := false }),
       [Call.gitInit (joinPath (joinPath rp ".recipe_deps") "recipe_engine"),
        Call.revParse r, Call.diff r, Call.clean]) := by
  have hce := checkout_engine_managed ov rr cfg m env s dep rp b u py3
    hov hparse hurl hnf hbr
  rw [hce, hrev]
  have hcont : s.localRevs.contains r = true := by
    have h := hfast
    unfold diffMatches at h
    rw [Bool.and_eq_true] at h
    exact h.1
  have hm : managedCheckout env
      (joinPath (joinPath rp ".recipe_deps") "recipe_engine") u b (.str r) s =
      (.ok { s with initialized := true, untrackedPresent := false },
       [Call.gitInit (joinPath (joinPath rp ".recipe_deps") "recipe_engine"),
        Call.revParse r, Call.diff r, Call.clean]) := by
    unfold managedCheckout
    dsimp only [pyStr]
    rw [show ({ s with initialized := true } : RepoState).localRevs.contains r
          = true from hcont]
    dsimp only []
    rw [hfast]
    simp [cleanStep]
  rw [hm]

/-- Witness for `fast_path_no_fetch_no_reset` at a concrete checkout whose
working tree already matches the pinned revision. -/
theorem fast_path_no_fetch_no_reset_witness :
    diffMatches ⟨true, ["deadbeef"], some "deadbeef", true, true, false⟩
      "deadbeef" = true ∧
    checkout_engine none "/r" "cfg"
        (some (.obj [("api_version", JValue.num 2),
           ("repo_name", JValue.str "x"),
           ("deps", JValue.obj [("recipe_engine", JValue.obj
             [("url", JValue.str "https://e"),
              ("revision", JValue.str "deadbeef")])])]))
        ⟨fun _ _ => none, false⟩
        ⟨true, ["deadbeef"], some "deadbeef", true, true, false⟩ =
      (.ok ("/r/.recipe_deps/recipe_engine", .bool false,
            ⟨true, ["deadbeef"], some "deadbeef", true, false, false⟩),
       [Call.gitInit "/r/.recipe_deps/recipe_engine", Call.revParse "deadbeef",
        Call.diff "deadbeef", Call.clean]) :=
  ⟨rfl,
   fast_path_no_fetch_no_reset none "/r" "cfg"
     (some (.obj [("api_version", JValue.num 2),
        ("repo_name", JValue.str "x"),
        ("deps", JValue.obj [("recipe_engine", JValue.obj
          [("url", JValue.str "https://e"),
           ("revision", JValue.str "deadbeef")])])]))
     ⟨fun _ _ => none, false⟩
     ⟨true, ["deadbeef"], some "deadbeef", true, true, false⟩
     ⟨.str "https://e", .str "deadbeef", .str "refs/heads/main"⟩
     (.bool false) "/r/" "https://e" "refs/heads/main" "deadbeef"
     rfl rfl rfl rfl rfl rfl rfl⟩

/-- Counterexample for claim C2: on a fast-path run the trace still contains the
unconditional `git clean`, and the final state differs from the initial
one because the untracked artifacts were removed — so a state-changing
version-control call does occur when the working tree already matches the
pinned revision. -/
theorem fast_path_clean_counterexample :
    Call.clean ∈ (checkout_engine none "/r" "cfg"
        (some (.obj [("api_version", JValue.num 2),
           ("repo_name", JValue.str "x"),
           ("deps", JValue.obj [("recipe_engine", JValue.obj
             [("url", JValue.str "https://e"),
              ("revision", JValue.str "deadbeef")])])]))
        ⟨fun _ _ => none, false⟩
        ⟨true, ["deadbeef"], some "deadbeef", true, true, false⟩).2 ∧
    (checkout_engine none "/r" "cfg"
        (some (.obj [("api_version", JValue.num 2),
           ("repo_name", JValue.str "x"),
           ("deps", JValue.obj [("recipe_engine", JValue.obj
             [("url", JValue.str "https://e"),
              ("revision", JValue.str "deadbeef")])])]))
        ⟨fun _ _ => none, false⟩
        ⟨true, ["deadbeef"], some "deadbeef", true, true, false⟩).1 =
      .ok ("/r/.recipe_deps/recipe_engine", .bool false,
           ⟨true, ["deadbeef"], some "deadbeef", true, false, false⟩) ∧
    (⟨true, ["deadbeef"], some "deadbeef", true, false, false⟩ : RepoState) ≠
      ⟨true, ["deadbeef"], some "deadbeef", true, true, false⟩ := by
  refine ⟨by decide, rfl, by decide⟩

/-- Claim C4, amended: a non-None, non-empty caller override, with a manifest
that parses to a non-None dependency, wins unconditionally: no
version-control call is made (the trace is empty), the checkout state is
untouched, and the override path is returned verbatim — regardless of the
descriptor's URL, whose `file://` test is short-circuited away. -/
theorem override_short_circuits (rr cfg : String) (m : Option JValue)
    (env : GitEnv) (s : RepoState) (dep : EngineDep) (rpJ py3 : JValue)
    (p : String) (hne : p ≠ "")
    (hparse : parse rr cfg m = .ok (some dep, rpJ, py3)) :
    checkout_engine (some p) rr cfg m env s = (.ok (p, py3, s), []) := by
  unfold checkout_engine
  rw [hparse]
  dsimp only []
  rw [show optTruthy (some p) = true by simp [optTruthy, hne]]
  simp

/-- Witness for `override_short_circuits`: the override wins even over a
`file://` URL descriptor. -/
theorem override_short_circuits_witness :
    checkout_engine (some "/over") "/r" "cfg"
        (some (.obj [("api_version", JValue.num 2),
           ("repo_name", JValue.str "x"),
           ("deps", JValue.obj [("recipe_engine", JValue.obj
             [("url", JValue.str "file:///srv/engine"),
              ("revision", JValue.str "deadbeef")])])]))
        ⟨fun _ _ => none, false⟩ ⟨false, [], none, false, false, false⟩ =
      (.ok ("/over", .bool false, ⟨false, [], none, false, false, false⟩),
       []) :=
  override_short_circuits "/r" "cfg"
    (some (.obj [("api_version", JValue.num 2),
       ("repo_name", JValue.str "x"),
       ("deps", JValue.obj [("recipe_engine", JValue.obj
         [("url", JValue.str "file:///srv/engine"),
          ("revision", JValue.str "deadbeef")])])]))
    ⟨fun _ _ => none, false⟩ ⟨false, [], none, false, false, false⟩
    ⟨.str "file:///srv/engine", .str "deadbeef", .str "refs/heads/main"⟩
    (.str "/r/") (.bool false) "/over" (by decide) rfl

/-- Counterexample for claim C4: the override is not unconditional as claimed.  With
a self-hosting manifest the override `/x` is ignored and the recipes path
is returned instead, and a non-None but empty override (`-O
recipe_engine=`) is treated as falsy, so version-control calls are still
made. -/
theorem override_not_unconditional :
    ((checkout_engine (some "/x") "/r" "cfg"
        (some (.obj [("api_version", JValue.num 2),
           ("project_id", JValue.str "recipe_engine")]))
        ⟨fun _ _ => none, false⟩ ⟨false, [], none, false, false, false⟩).1 =
      .ok ("/r/", .bool false, ⟨false, [], none, false, false, false⟩) ∧
      ("/r/" : String) ≠ "/x") ∧
    (checkout_engine (some "") "/r" "cfg"
        (some (.obj [("api_version", JValue.num 2),
           ("repo_name", JValue.str "x"),
           ("deps", JValue.obj [("recipe_engine", JValue.obj
             [("url", JValue.str "https://e"),
              ("revision", JValue.str "deadbeef")])])]))
        ⟨fun _ _ => none, false⟩ ⟨false, [], none, false, false, false⟩).2 =
      [Call.gitInit "/r/.recipe_deps/recipe_engine", Call.revParse "deadbeef",
       Call.fetch "https://e" "refs/heads/main"] :=
  ⟨⟨rfl, by decide⟩, rfl⟩

/-- Claim C8: when the working tree does not match the pinned (locally
resolvable) revision, reconciliation removes the `.git/index.lock`
artifact and then attempts the hard reset in every case: a removal that
finds no lock is silently ignored (no warning), a removal blocked for
another reason only logs a warning, and the reset call follows in the
trace either way; when no blocked lock remains the reset succeeds and the
run completes, while a blocked removal leaves the lock and the reset
attempt fails fatally. -/
theorem lock_removal_before_reset (ov : Option String) (rr cfg : String)
    (m : Option JValue) (env : GitEnv) (s : RepoState) (dep : EngineDep)
    (py3 : JValue) (rp u b r : String)
    (hov : optTruthy ov = false)
    (hparse : parse rr cfg m = .ok (some dep, .str rp, py3))
    (hurl : dep.url = .str u)
    (hnf : strStartsWith u "file://" = false)
    (hrev : dep.revision = .str r)
    (hbr : dep.branch = .str b)
    (hcont : s.localRevs.contains r = true)
    (hslow : diffMatches { s with initialized := true } r = false) :
    (checkout_engine ov rr cfg m env s).2 =
      [Call.gitInit (joinPath (joinPath rp ".recipe_deps") "recipe_engine"),
       Call.revParse r, Call.diff r,
       Call.removeLock (lockFilePath
         (joinPath (joinPath rp ".recipe_deps") "recipe_engine"))] ++
      (if s.lockPresent && env.lockRemovalBlocked then
         [Call.warnRemoveFailed (lockFilePath
           (joinPath (joinPath rp ".recipe_deps") "recipe_engine"))]
       else []) ++
      [Call.reset r] ++
      (if s.lockPresent && env.lockRemovalBlocked then [] else [Call.clean]) ∧
    ((s.lockPresent && env.lockRemovalBlocked) = false →
       (checkout_engine ov rr cfg m env s).1 =
         .ok (joinPath (joinPath rp ".recipe_deps") "recipe_engine", py3,
              { s with
                  initialized := true
                  lockPresent := false
                  headRev := some r
                  worktreeMatchesHead := true
                  untrackedPresent := false })) ∧
    ((s.lockPresent && env.lockRemovalBlocked) = true →
       (checkout_engine ov rr cfg m env s).1 =
         .error (.calledProcessError "reset")) := by
  have hce := checkout_engine_managed ov rr cfg m env s dep rp b u py3
    hov hparse hurl hnf hbr
  have hm : managedCheckout env
      (joinPath (joinPath rp ".recipe_deps") "recipe_engine") u b (.str r) s =
      resetStep env (joinPath (joinPath rp ".recipe_deps") "recipe_engine") r
        { s with initialized := true }
        [Call.gitInit (joinPath (joinPath rp ".recipe_deps") "recipe_engine"),
         Call.revParse r, Call.diff r] := by
    unfold managedCheckout
    dsimp only [pyStr]
    rw [show ({ s with initialized := true } : RepoState).localRevs.contains r
          = true from hcont]
    dsimp only []
    rw [hslow]
    rfl
  rw [hce, hrev, hm, resetStep_eval]
  obtain ⟨ini, lrs, hd, wm, up, lp⟩ := s
  dsimp only [] at hcont ⊢
  have hmem : r ∈ lrs := by simpa using hcont
  by_cases hC : (lp && env.lockRemovalBlocked) = true
  · simp [hC, hmem]
  · rw [Bool.not_eq_true] at hC
    simp [hC, hmem]

/-- Witness for `lock_removal_before_reset`: a checkout with a stale lock
that can be removed resets and completes without a warning. -/
theorem lock_removal_before_reset_witness :
    (checkout_engine none "/r" "cfg"
        (some (.obj [("api_version", JValue.num 2),
           ("repo_name", JValue.str "x"),
           ("deps", JValue.obj [("recipe_engine", JValue.obj
             [("url", JValue.str "https://e"),
              ("revision", JValue.str "deadbeef")])])]))
        ⟨fun _ _ => none, false⟩
        ⟨true, ["deadbeef"], some "old", true, false, true⟩).2 =
      [Call.gitInit "/r/.recipe_deps/recipe_engine", Call.revParse "deadbeef",
       Call.diff "deadbeef",
       Call.removeLock "/r/.recipe_deps/recipe_engine/.git/index.lock",
       Call.reset "deadbeef", Call.clean] ∧
    (checkout_engine none "/r" "cfg"
        (some (.obj [("api_version", JValue.num 2),
           ("repo_name", JValue.str "x"),
           ("deps", JValue.obj [("recipe_engine", JValue.obj
             [("url", JValue.str "https://e"),
              ("revision", JValue.str "deadbeef")])])]))
        ⟨fun _ _ => none, false⟩
        ⟨true, ["deadbeef"], some "old", true, false, true⟩).1 =
      .ok ("/r/.recipe_deps/recipe_engine", .bool false,
           ⟨true, ["deadbeef"], some "deadbeef", true, false, false⟩) := by
  have h := lock_removal_before_reset none "/r" "cfg"
    (some (.obj [("api_version", JValue.num 2),
       ("repo_name", JValue.str "x"),
       ("deps", JValue.obj [("recipe_engine", JValue.obj
         [("url", JValue.str "https://e"),
          ("revision", JValue.str "deadbeef")])])]))
    ⟨fun _ _ => none, false⟩
    ⟨true, ["deadbeef"], some "old", true, false, true⟩
    ⟨.str "https://e", .str "deadbeef", .str "refs/heads/main"⟩
    (.bool false) "/r/" "https://e" "refs/heads/main" "deadbeef"
    rfl rfl rfl rfl rfl rfl rfl rfl
  exact ⟨h.1, h.2.1 rfl⟩

/-- Claim C9: `parse_args` collects the `-O` values in command-line order and
returns the first one carrying the `recipe_engine=` prefix, stripped of
that prefix: values without the prefix are skipped, a later match never
shadows an earlier one, and with no matching value the override is
`none`. -/
theorem parse_args_override_selection (cwd : String) :
    (∀ vs : List String,
       parse_args (vs.flatMap (fun v => ["-O", v])) cwd =
         (firstEngineOverride vs, none)) ∧
    (∀ vs : List String,
       (∀ v ∈ vs, strStartsWith v "recipe_engine=" = false) →
       firstEngineOverride vs = none) ∧
    (∀ (vs1 : List String) (v : String) (vs2 : List String),
       (∀ u ∈ vs1, strStartsWith u "recipe_engine=" = false) →
       strStartsWith v "recipe_engine=" = true →
       firstEngineOverride (vs1 ++ v :: vs2) = some (v.drop 14)) := by
  have hscan : ∀ (vs : List String) (acc : List String) (pkg : Option String),
      scanArgs (vs.flatMap (fun v => ["-O", v])) acc pkg = (acc ++ vs, pkg) := by
    intro vs
    induction vs with
    | nil => intro acc pkg; simp [scanArgs]
    | cons v rest ih =>
      intro acc pkg
      rw [List.flatMap_cons]
      show scanArgs ("-O" :: v :: rest.flatMap (fun v => ["-O", v])) acc pkg =
        (acc ++ v :: rest, pkg)
      rw [show scanArgs ("-O" :: v :: rest.flatMap (fun v => ["-O", v])) acc pkg
            = scanArgs (rest.flatMap (fun v => ["-O", v])) (acc ++ [v]) pkg
          from rfl]
      rw [ih]
      simp
  refine ⟨?_, ?_, ?_⟩
  · intro vs
    unfold parse_args
    rw [hscan]
    rfl
  · intro vs h
    induction vs with
    | nil => rfl
    | cons v rest ih =>
      unfold firstEngineOverride
      rw [h v (List.mem_cons_self v rest)]
      simp only [Bool.false_eq_true, if_false]
      exact ih (fun u hu => h u (List.mem_cons_of_mem v hu))
  · intro vs1 v vs2 h1 hv
    induction vs1 with
    | nil =>
      rw [List.nil_append]
      unfold firstEngineOverride
      rw [if_pos hv]
    | cons u rest ih =>
      rw [List.cons_append]
      unfold firstEngineOverride
      rw [h1 u (List.mem_cons_self u rest)]
      simp only [Bool.false_eq_true, if_false]
      exact ih (fun x hx => h1 x (List.mem_cons_of_mem u hx))

/-- Witness for `parse_args_override_selection` on a concrete command
line: the first matching `-O` value wins and is stripped of its prefix. -/
theorem parse_args_override_selection_witness :
    parse_args ["-O", "x=1", "-O", "recipe_engine=/e",
      "-O", "recipe_engine=/f"] "/cwd" = (some "/e", none) ∧
    firstEngineOverride ["x=1", "recipe_engine=/e", "recipe_engine=/f"] =
      some "/e" := by
  have h1 := (parse_args_override_selection "/cwd").1
    ["x=1", "recipe_engine=/e", "recipe_engine=/f"]
  have h3 := (parse_args_override_selection "/cwd").2.2
    ["x=1"] "recipe_engine=/e" ["recipe_engine=/f"] (by decide) (by decide)
  exact ⟨h1, h3⟩

/-- Claim C10: without a truthy `--package`, the repo root is the toplevel
reported by the version-control tool, the manifest path is
`infra/config/recipes.cfg` under it, and `--package <path>` is prepended
to the forwarded arguments; with `--package`, the forwarded arguments are
unchanged and the repo root is the manifest path's third-level parent.
The final handoff argument vector ends with exactly the forwarded
arguments. -/
theorem package_argument_handling (w : World) :
    ((parse_args w.argv w.cwd).2 = none →
       computePackage w =
         (["--package", joinPath (joinPath (joinPath w.gitToplevel "infra")
             "config") "recipes.cfg"] ++ w.argv,
          w.gitToplevel,
          joinPath (joinPath (joinPath w.gitToplevel "infra") "config")
            "recipes.cfg",
          [Call.showToplevel])) ∧
    (∀ p, (parse_args w.argv w.cwd).2 = some p → p ≠ "" →
       computePackage w = (w.argv, dirname (dirname (dirname p)), p, [])) ∧
    (∀ av tr, main w = (.exec av, tr) →
       ∃ vp ep, av = vp :: "-u" ::
         joinPath ep (joinPath "recipe_engine" "main.py") ::
         (computePackage w).1) := by
  refine ⟨?_, ?_, ?_⟩
  · intro h
    unfold computePackage
    dsimp only []
    rw [h]
    rfl
  · intro p h hp
    unfold computePackage
    dsimp only []
    rw [h]
    rw [show optTruthy (some p) = true by simp [optTruthy, hp]]
    rfl
  · intro av tr hav
    unfold main at hav
    by_cases hg : w.onPath GIT = true
    · by_cases hc : w.onPath CIPD = true
      · simp only [hg, hc, Bool.not_true, Bool.false_eq_true, if_false]
          at hav
        revert hav
        rcases hcp : computePackage w with ⟨args, rr2, cfg2, pre⟩
        dsimp only []
        rcases hco : checkout_engine (parse_args w.argv w.cwd).1 rr2 cfg2
            w.manifest w.env w.repoState with ⟨res, ctr⟩
        cases res with
        | error e =>
          intro hav
          dsimp only [] at hav
          simp only [Prod.mk.injEq] at hav
          exact MainResult.noConfusion hav.1
        | ok v =>
          obtain ⟨ep, py3, s3⟩ := v
          intro hav
          dsimp only [] at hav
          by_cases hvp : w.onPath
              ("vpython" ++ (if (truthy py3 || (w.py3Env == some "true")) = true
                then "3" else "")) = true
          · simp only [hvp, Bool.not_true, Bool.false_eq_true, if_false]
              at hav
            simp only [Prod.mk.injEq, MainResult.exec.injEq] at hav
            refine ⟨"vpython" ++ (if (truthy py3 || (w.py3Env == some "true")) = true
                then "3" else ""), ep, ?_⟩
            rw [← hav.1]
            rfl
          · rw [Bool.not_eq_true] at hvp
            simp only [hvp, Bool.not_false, if_true] at hav
            simp only [Prod.mk.injEq] at hav
            exact MainResult.noConfusion hav.1
      · rw [Bool.not_eq_true] at hc
        simp only [hg, hc, Bool.not_true, Bool.not_false, Bool.false_eq_true,
          if_false, if_true] at hav
        simp only [Prod.mk.injEq] at hav
        exact MainResult.noConfusion hav.1
    · rw [Bool.not_eq_true] at hg
      simp only [hg, Bool.not_false, if_true] at hav
      simp only [Prod.mk.injEq] at hav
      exact MainResult.noConfusion hav.1

/-- Witness for `package_argument_handling` at a concrete world without
`--package` and one with it. -/
theorem package_argument_handling_witness :
    computePackage ⟨fun _ => true, ["run", "x"], none, "/cwd", "/top",
        none, ⟨fun _ _ => none, false⟩,
        ⟨false, [], none, false, false, false⟩⟩ =
      (["--package", "/top/infra/config/recipes.cfg", "run", "x"], "/top",
       "/top/infra/config/recipes.cfg", [Call.showToplevel]) ∧
    computePackage ⟨fun _ => true, ["--package", "/a/b/c/r.cfg"], none,
        "/cwd", "/top", none, ⟨fun _ _ => none, false⟩,
        ⟨false, [], none, false, false, false⟩⟩ =
      (["--package", "/a/b/c/r.cfg"], "/a", "/a/b/c/r.cfg", []) := by
  constructor
  · exact (package_argument_handling _).1 rfl
  · exact (package_argument_handling _).2.1 "/a/b/c/r.cfg" rfl (by decide)

/-- Claim C5, amended: missing `git` or `cipd` terminates the run with exit
code 1 and a message naming that binary, before any version-control call
(the trace is empty); the runtime variant (`vpython`/`vpython3`) is
checked only after `checkout_engine` has completed — if it is missing the
process still exits 1 with a message naming it, but the checkout calls
have already been made. -/
theorem required_binaries_check (w : World) :
    (w.onPath GIT = false →
       main w = (.exitCode 1 (some (binaryMissingMsg GIT)), [])) ∧
    (w.onPath GIT = true → w.onPath CIPD = false →
       main w = (.exitCode 1 (some (binaryMissingMsg CIPD)), [])) ∧
    (∀ ep py3 s3 ctr,
       w.onPath GIT = true → w.onPath CIPD = true →
       checkout_engine (parse_args w.argv w.cwd).1 (computePackage w).2.1
         (computePackage w).2.2.1 w.manifest w.env w.repoState =
         (.ok (ep, py3, s3), ctr) →
       w.onPath ("vpython" ++
         (if (truthy py3 || (w.py3Env == some "true")) = true then "3"
          else "")) = false →
       main w = (.exitCode 1 (some (binaryMissingMsg ("vpython" ++
         (if (truthy py3 || (w.py3Env == some "true")) = true then "3"
          else "")))), (computePackage w).2.2.2 ++ ctr)) := by
  refine ⟨?_, ?_, ?_⟩
  · intro hg
    unfold main
    simp only [hg, Bool.not_false, if_true]
  · intro hg hc
    unfold main
    simp only [hg, hc, Bool.not_true, Bool.not_false, Bool.false_eq_true,
      if_false, if_true]
  · intro ep py3 s3 ctr hg hc hco hvp
    unfold main
    simp only [hg, hc, Bool.not_true, Bool.false_eq_true, if_false]
    rcases hcp : computePackage w with ⟨args, rr2, cfg2, pre⟩
    dsimp only []
    rw [show checkout_engine (parse_args w.argv w.cwd).1 rr2 cfg2 w.manifest
          w.env w.repoState = (.ok (ep, py3, s3), ctr) by
        rw [← hco, hcp]]
    dsimp only []
    rw [hvp]
    simp only [Bool.not_false, if_true]

/-- Counterexample for claim C5: with `git` and `cipd` present but `vpython3`
missing, the process does exit 1 naming `vpython3`, yet the check happens
only after checkout logic has run — the trace of version-control calls is
non-empty.  The claim that the missing-binary check precedes any checkout
logic is therefore false for the runtime variant. -/
theorem vpython_checked_after_checkout :
    main ⟨fun b => b == "git" || b == "cipd",
        ["--package", "/a/b/c/r.cfg"], none, "/cwd", "/top",
        some (.obj [("api_version", JValue.num 2),
          ("repo_name", JValue.str "x"), ("py3_only", JValue.bool true),
          ("deps", JValue.obj [("recipe_engine", JValue.obj
            [("url", JValue.str "https://e"),
             ("revision", JValue.str "deadbeef")])])]),
        ⟨fun _ _ => none, false⟩,
        ⟨true, ["deadbeef"], some "deadbeef", true, true, false⟩⟩ =
      (.exitCode 1 (some "Required binary is not found on PATH: vpython3"),
       [Call.gitInit "/a/.recipe_deps/recipe_engine",
        Call.revParse "deadbeef", Call.diff "deadbeef", Call.clean]) ∧
    ([Call.gitInit "/a/.recipe_deps/recipe_engine",
      Call.revParse "deadbeef", Call.diff "deadbeef", Call.clean] :
      List Call) ≠ [] :=
  ⟨rfl, by decide⟩

/-- Witness for `required_binaries_check`: all three conjuncts at concrete
worlds — a missing `git`, a missing `cipd`, and a missing `vpython3`
detected only after a completed checkout. -/
theorem required_binaries_check_witness :
    main ⟨fun _ => false, [], none, "/", "/top", none,
        ⟨fun _ _ => none, false⟩,
        ⟨false, [], none, false, false, false⟩⟩ =
      (.exitCode 1 (some "Required binary is not found on PATH: git"),
       []) ∧
    main ⟨fun b => b == "git", [], none, "/", "/top", none,
        ⟨fun _ _ => none, false⟩,
        ⟨false, [], none, false, false, false⟩⟩ =
      (.exitCode 1 (some "Required binary is not found on PATH: cipd"),
       []) ∧
    main ⟨fun b => b == "git" || b == "cipd",
        ["--package", "/a/b/c/r.cfg"], none, "/cwd", "/top",
        some (.obj [("api_version", JValue.num 2),
          ("repo_name", JValue.str "x"), ("py3_only", JValue.bool true),
          ("deps", JValue.obj [("recipe_engine", JValue.obj
            [("url", JValue.str "https://e"),
             ("revision", JValue.str "deadbeef")])])]),
        ⟨fun _ _ => none, false⟩,
        ⟨true, ["deadbeef"], some "deadbeef", true, true, false⟩⟩ =
      (.exitCode 1 (some "Required binary is not found on PATH: vpython3"),
       [Call.gitInit "/a/.recipe_deps/recipe_engine",
        Call.revParse "deadbeef", Call.diff "deadbeef", Call.clean]) := by
  refine ⟨?_, ?_, ?_⟩
  · exact (required_binaries_check _).1 rfl
  · exact (required_binaries_check _).2.1 rfl rfl
  · exact (required_binaries_check _).2.2 "/a/.recipe_deps/recipe_engine"
      (.bool true)
      ⟨true, ["deadbeef"], some "deadbeef", true, false, false⟩
      [Call.gitInit "/a/.recipe_deps/recipe_engine",
       Call.revParse "deadbeef", Call.diff "deadbeef", Call.clean]
      rfl rfl rfl rfl

/-- Counterexample for claim C3: a file that is not valid JSON does not produce a
`MalformedRecipesCfg`: `json.load`'s own decode error escapes `parse`
unwrapped, because the `try` block begins only after the file has been
decoded.  The original claim's invalid-JSON case is therefore false. -/
theorem invalid_json_not_malformed :
    parse "/r" "p.cfg" none = .error .jsonDecodeError ∧
    isMalformedAt (parse "/r" "p.cfg" none) "p.cfg" = false :=
  ⟨rfl, rfl⟩

/-- Witness for `parse_malformed_iff`: a type-correct manifest whose
schema version is 3 is rejected with a `MalformedRecipesCfg` carrying the
manifest path, matching the bad-version case of the amended claim. -/
theorem parse_malformed_iff_witness :
    wellTypedManifest [("api_version", JValue.num 3)] = true ∧
    caseBadVersion [("api_version", JValue.num 3)] = true ∧
    parse "/r" "p.cfg" (some (.obj [("api_version", JValue.num 3)])) =
      .error (.malformedRecipesCfg "unknown version 3" "p.cfg") ∧
    isMalformedAt (parse "/r" "p.cfg"
      (some (.obj [("api_version", JValue.num 3)]))) "p.cfg" = true :=
  ⟨rfl, rfl, rfl,
   (parse_malformed_iff "/r" "p.cfg" [("api_version", JValue.num 3)]
      rfl).mpr rfl⟩

end RecipesPy
